import Mathlib

/-!
Shallow embedding of the core data pipeline of the EV-registration dashboard
(`src/app.py`): the dataset loader (`load_data`, lines 31-42), the filter
engine (`df_filtered`, lines 85-94), and the aggregation queries
(`city_counts` line 101, `top10_cities_main`/`growth` lines 139-148,
`type_counts` line 187, `makes_counts` line 357, and the box-plot grouping
`df_type_price` lines 335-345).

A pandas cell that may hold NaN is modelled as an `Option`; pandas
comparisons (`>=`, `<=`, `==`, `isin`) on a NaN cell are `False`, which the
embedding mirrors by returning `false` on `none`.
-/

namespace EV

/-- One row of the in-memory table after `load_data` has coerced the numeric
columns. Missing cells (NaN) are `none`. -/
structure Record where
  modelYear : Option Int
  vehicleType : Option String
  city : Option String
  make : Option String
  baseMsrp : Option Int
  electricRange : Option Int
deriving DecidableEq

/-- One raw CSV row as read by `pd.read_csv`: the three numeric columns are
still text, the categorical columns may already be missing. -/
structure RawRecord where
  modelYear : String
  vehicleType : Option String
  city : Option String
  make : Option String
  baseMsrp : String
  electricRange : String
deriving DecidableEq

/-- Value of a decimal digit character, `none` for a non-digit. -/
def digitVal (c : Char) : Option Nat :=
  if 48 ≤ c.toNat && c.toNat ≤ 57 then some (c.toNat - 48) else none

/-- Parses a nonempty run of decimal digits, `none` on any non-digit. -/
def parseDigits (acc : Nat) : List Char → Option Nat
  | [] => some acc
  | c :: cs =>
    match digitVal c with
    | none => none
    | some d => parseDigits (10 * acc + d) cs

/-- Models `pd.to_numeric(column, errors="coerce")` on one cell: an integer
literal (optionally negative) parses, anything else becomes missing rather
than an error. -/
def parseNum (s : String) : Option Int :=
  match s.data with
  | [] => none
  | c :: cs =>
    if c = '-' then
      match cs with
      | [] => none
      | d :: ds => (parseDigits 0 (d :: ds)).map (fun n => -(n : Int))
    else
      (parseDigits 0 (c :: cs)).map (fun n => (n : Int))

/-- Numeric coercion of one raw row (`src/app.py` lines 35-37). -/
def coerceRow (raw : RawRecord) : Record :=
  { modelYear := parseNum raw.modelYear
    vehicleType := raw.vehicleType
    city := raw.city
    make := raw.make
    baseMsrp := parseNum raw.baseMsrp
    electricRange := parseNum raw.electricRange }

/-- The dataset loader (`src/app.py` lines 32-40): coerce the numeric
columns, then `dropna(subset=["Model Year"])`. -/
def load_data (rows : List RawRecord) : List Record :=
  (rows.map coerceRow).filter (fun r => (r.modelYear).isSome)

/-- The two fatal startup failures: `pd.read_csv` raising on an unreadable
source (line 33), and `int(df["Model Year"].min())` raising on an empty
frame (line 50). -/
inductive LoadError where
  | unreadable : LoadError
  | emptyData : LoadError
deriving DecidableEq

/-- The startup pipeline around `load_data` (`src/app.py` lines 42 and
50-51). An unreadable source is modelled as `none`; reading it raises
(`LoadError.unreadable`). If the loaded frame has no rows,
`int(df["Model Year"].min())` raises on NaN (`LoadError.emptyData`); either
way no dashboard state is produced. -/
def startupData (source : Option (List RawRecord)) : Except LoadError (List Record) :=
  match source with
  | none => Except.error LoadError.unreadable
  | some rows =>
    if (load_data rows).isEmpty then Except.error LoadError.emptyData
    else Except.ok (load_data rows)

/-- Models `Series.isin(allowed)` on one cell: `false` on a missing cell,
list membership otherwise. -/
def isin {α : Type} [BEq α] (cell : Option α) (allowed : List α) : Bool :=
  match cell with
  | none => false
  | some v => allowed.contains v

/-- Models `df["Model Year"] >= bound` on one cell (NaN compares `False`). -/
def yearGe (cell : Option Int) (bound : Int) : Bool :=
  match cell with
  | none => false
  | some y => bound ≤ y

/-- Models `df["Model Year"] <= bound` on one cell (NaN compares `False`). -/
def yearLe (cell : Option Int) (bound : Int) : Bool :=
  match cell with
  | none => false
  | some y => y ≤ bound

/-- The user's filter selections: year-range slider and the three
multiselect widgets (`src/app.py` lines 52-82). -/
structure FilterState where
  yearMin : Int
  yearMax : Int
  selectedTypes : List String
  selectedCities : List String
  selectedMakes : List String

/-- The filter engine (`src/app.py` lines 85-94): the base mask combines the
year range with the vehicle-type `isin`; the city and make restrictions are
applied only when their selection lists are non-empty (Python truthiness of
`selected_cities` / `selected_makes`). -/
def df_filtered (df : List Record) (fs : FilterState) : List Record :=
  let base := df.filter (fun r =>
    yearGe r.modelYear fs.yearMin && yearLe r.modelYear fs.yearMax &&
    isin r.vehicleType fs.selectedTypes)
  let afterCity :=
    if fs.selectedCities.isEmpty then base
    else base.filter (fun r => isin r.city fs.selectedCities)
  if fs.selectedMakes.isEmpty then afterCity
  else afterCity.filter (fun r => isin r.make fs.selectedMakes)

/-- The conjunctive filter predicate as the specification states it
(spec 4.2): `modelYear` within the inclusive year range, `vehicleType` in
`selectedTypes`, and, when the optional selections are non-empty, `city` in
`selectedCities` and `make` in `selectedMakes`. -/
def filterPred (fs : FilterState) (r : Record) : Bool :=
  yearGe r.modelYear fs.yearMin && yearLe r.modelYear fs.yearMax &&
  isin r.vehicleType fs.selectedTypes &&
  (fs.selectedCities.isEmpty || isin r.city fs.selectedCities) &&
  (fs.selectedMakes.isEmpty || isin r.make fs.selectedMakes)

/-- Insertion step of the count-descending sort behind
`value_counts()` / `nlargest`. -/
def insertCnt (p : String × Nat) : List (String × Nat) → List (String × Nat)
  | [] => [p]
  | q :: qs => if q.2 < p.2 then p :: q :: qs else q :: insertCnt p qs

/-- Sorts category/count pairs by count descending (the order in which
`value_counts()` returns its entries; the spec leaves the tie order
unspecified). -/
def sortCntDesc : List (String × Nat) → List (String × Nat)
  | [] => []
  | p :: ps => insertCnt p (sortCntDesc ps)

/-- Models `Series.value_counts()` on a column of optional strings: count
each distinct non-missing value (NaN cells are dropped), entries ordered by
count descending. -/
def valueCounts (cells : List (Option String)) : List (String × Nat) :=
  let vals := cells.filterMap id
  sortCntDesc (vals.dedup.map (fun v => (v, vals.count v)))

/-- Models `df_filtered[field].value_counts().nlargest(n)`: the top `n`
categories of `field` by count descending. -/
def topN (view : List Record) (field : Record → Option String) (n : Nat) : List (String × Nat) :=
  (valueCounts (view.map field)).take n

/-- `city_counts` (`src/app.py` line 101): top-10 cities of the filtered
view by count. -/
def city_counts (view : List Record) : List (String × Nat) :=
  (valueCounts (view.map (fun r => r.city))).take 10

/-- `top10_cities_main` (`src/app.py` line 139): the same top-10
city ranking recomputed from the filtered view, keeping only the city
names. -/
def top10_cities_main (view : List Record) : List String :=
  ((valueCounts (view.map (fun r => r.city))).take 10).map Prod.fst

/-- `makes_counts` (`src/app.py` line 357): top-10 makes of the filtered
view by count. -/
def makes_counts (view : List Record) : List (String × Nat) :=
  (valueCounts (view.map (fun r => r.make))).take 10

/-- `type_counts` (`src/app.py` line 187): plain `value_counts()` of the
vehicle-type column of the filtered view. -/
def type_counts (view : List Record) : List (String × Nat) :=
  valueCounts (view.map (fun r => r.vehicleType))

/-- The `groupby(["Model Year", "City"])` key of a row; rows with a missing
key component belong to no group (pandas drops NaN group keys). -/
def pairKey (r : Record) : Option (Int × String) :=
  match r.modelYear, r.city with
  | some y, some c => some (y, c)
  | _, _ => none

/-- Character comparison by code point, as Python compares strings. -/
def charLt (a b : Char) : Bool :=
  decide (a.toNat < b.toNat)

/-- Lexicographic strict order on character lists. -/
def strLtB : List Char → List Char → Bool
  | [], [] => false
  | [], _ :: _ => true
  | _ :: _, [] => false
  | a :: as, b :: bs => charLt a b || (a.toNat == b.toNat && strLtB as bs)

/-- Lexicographic strict order on strings (the order used by Python's
`sorted`). -/
def strLt (a b : String) : Bool :=
  strLtB a.data b.data

/-- Ascending ordering of `(Model Year, City)` group keys, year first, as
`groupby` sorts its keys. -/
def keyLt (a b : Int × String) : Bool :=
  decide (a.1 < b.1) || (a.1 == b.1 && strLt a.2 b.2)

/-- Insertion step of the group-key sort. -/
def insertKey (k : Int × String) : List (Int × String) → List (Int × String)
  | [] => [k]
  | j :: js => if keyLt k j then k :: j :: js else j :: insertKey k js

/-- Sorts group keys ascending, as `groupby` orders its result. -/
def sortKeys : List (Int × String) → List (Int × String)
  | [] => []
  | k :: ks => insertKey k (sortKeys ks)

/-- The growth aggregation (`src/app.py` lines 140-148): restrict the
filtered view to rows whose city is in `topCities`
(`df_filtered["City"].isin(top10_cities_main)`), then
`groupby(["Model Year", "City"]).size()`: one entry per distinct
`(modelYear, city)` key actually present, carrying the number of its rows. -/
def growth (view : List Record) (topCities : List String) : List ((Int × String) × Nat) :=
  let df_top10 := view.filter (fun r => isin r.city topCities)
  (sortKeys (df_top10.filterMap pairKey).dedup).map
    (fun k => (k, df_top10.countP (fun r => decide (pairKey r = some k))))

/-- The growth series as the source wires it up (`src/app.py` lines
139-148): the `topCities` argument is `top10_cities_main` recomputed from
the same filtered view. -/
def growth_main (view : List Record) : List ((Int × String) × Nat) :=
  let df_top10 := view.filter (fun r => isin r.city (top10_cities_main view))
  (sortKeys (df_top10.filterMap pairKey).dedup).map
    (fun k => (k, df_top10.countP (fun r => decide (pairKey r = some k))))

/-- `df_type_price` (`src/app.py` line 335): the filtered view restricted to
rows with a non-missing `Base MSRP`. -/
def df_type_price (view : List Record) : List Record :=
  view.filter (fun r => (r.baseMsrp).isSome)

/-- Insertion step of the ascending string sort behind Python's `sorted`. -/
def insertStr (a : String) : List String → List String
  | [] => [a]
  | b :: bs => if strLt b a then b :: insertStr a bs else a :: b :: bs

/-- Models Python's `sorted` on a list of strings. -/
def sortStr : List String → List String
  | [] => []
  | a :: as => insertStr a (sortStr as)

/-- The box-plot grouping (`src/app.py` lines 335-345): restrict to rows
with a non-missing `Base MSRP`, then for each vehicle type in
`sorted(df_type_price["Electric Vehicle Type"].unique())` collect that
type's MSRP values in row order. Every row of the source's `df_filtered`
has a non-missing vehicle type (it passed the `isin` mask), so the distinct
present type values are exactly what `unique()` returns. -/
def numericGroups (view : List Record) : List (String × List Int) :=
  let dtp := df_type_price view
  (sortStr (dtp.filterMap (fun r => r.vehicleType)).dedup).map
    (fun c => (c, (dtp.filter (fun r => r.vehicleType == some c)).filterMap
      (fun r => r.baseMsrp)))

/-- Concrete record: 2020 BEV, Seattle, Tesla, MSRP 40000 (spec section 8
scenario). -/
def exR1 : Record :=
  ⟨some 2020, some "BEV", some "Seattle", some "Tesla", some 40000, none⟩

/-- Concrete record: 2020 PHEV, Bellevue, Toyota, missing MSRP. -/
def exR2 : Record :=
  ⟨some 2020, some "PHEV", some "Bellevue", some "Toyota", none, none⟩

/-- Concrete record: 2021 BEV, Seattle, Tesla, MSRP 42000. -/
def exR3 : Record :=
  ⟨some 2021, some "BEV", some "Seattle", some "Tesla", some 42000, none⟩

/-- Concrete raw row that parses cleanly. -/
def exRaw1 : RawRecord :=
  ⟨"2020", some "BEV", some "Seattle", some "Tesla", "40000", "215"⟩

/-- Concrete raw row whose `Model Year` cell is unparseable. -/
def exRaw2 : RawRecord :=
  ⟨"n/a", some "PHEV", some "Bellevue", some "Toyota", "", "30"⟩

/-- Concrete filter selection keeping both vehicle types, no optional
restriction (spec section 8 scenario). -/
def exFS : FilterState :=
  ⟨2020, 2021, ["BEV", "PHEV"], [], []⟩

/-- Concrete filter selection with an empty vehicle-type multiselect. -/
def exFSnoTypes : FilterState :=
  ⟨2020, 2021, [], [], []⟩

example : parseNum "2020" = some 2020 := by decide
example : parseNum "-17" = some (-17) := by decide
example : parseNum "n/a" = none := by decide
example : parseNum "" = none := by decide
example : load_data [exRaw1, exRaw2] =
    [⟨some 2020, some "BEV", some "Seattle", some "Tesla", some 40000, some 215⟩] := by decide
example : topN [exR1, exR2, exR3] (fun r => r.city) 10 = [("Seattle", 2), ("Bellevue", 1)] := by
  decide
example : type_counts [exR1, exR2, exR3] = [("BEV", 2), ("PHEV", 1)] := by decide
example : numericGroups [exR1, exR2, exR3] = [("BEV", [40000, 42000])] := by decide
example : growth [exR1, exR2, exR3] ["Seattle"] =
    [((2020, "Seattle"), 1), ((2021, "Seattle"), 1)] := by decide
example : growth_main [exR1, exR2, exR3] =
    [((2020, "Bellevue"), 1), ((2020, "Seattle"), 1), ((2021, "Seattle"), 1)] := by decide
example : df_filtered [exR1, exR2, exR3] ⟨2020, 2021, ["BEV", "PHEV"], [], []⟩ =
    [exR1, exR2, exR3] := by decide
example : df_filtered [exR1, exR2, exR3] ⟨2020, 2021, [], [], []⟩ = [] := by decide
example : startupData (some [exRaw2]) = Except.error LoadError.emptyData := rfl

/-- Characters with equal code points are equal. -/
theorem char_toNat_inj {a b : Char} (h : a.toNat = b.toNat) : a = b := by
  have := congrArg Char.ofNat h
  rwa [Char.ofNat_toNat, Char.ofNat_toNat] at this

/-- Strings with equal character lists are equal. -/
theorem str_data_inj {s t : String} (h : s.data = t.data) : s = t := by
  cases s; cases t; simp_all

theorem strLtB_irrefl (l : List Char) : strLtB l l = false := by
  induction l with
  | nil => rfl
  | cons a as ih => simp [strLtB, charLt, ih]

theorem strLtB_trans : ∀ {a b c : List Char},
    strLtB a b = true → strLtB b c = true → strLtB a c = true
  | [], _ :: _, _ :: _, _, _ => rfl
  | x :: xs, y :: ys, z :: zs, hab, hbc => by
    simp only [strLtB, charLt, Bool.or_eq_true, Bool.and_eq_true, decide_eq_true_eq,
      beq_iff_eq] at hab hbc ⊢
    rcases hab with hab | ⟨hab, hab2⟩ <;> rcases hbc with hbc | ⟨hbc, hbc2⟩
    · exact Or.inl (Nat.lt_trans hab hbc)
    · exact Or.inl (hbc ▸ hab)
    · exact Or.inl (hab ▸ hbc)
    · exact Or.inr ⟨hab.trans hbc, strLtB_trans hab2 hbc2⟩

theorem strLtB_connex : ∀ {a b : List Char},
    a ≠ b → strLtB a b = true ∨ strLtB b a = true
  | [], [], h => absurd rfl h
  | [], _ :: _, _ => Or.inl rfl
  | _ :: _, [], _ => Or.inr rfl
  | x :: xs, y :: ys, h => by
    simp only [strLtB, charLt, Bool.or_eq_true, Bool.and_eq_true, decide_eq_true_eq,
      beq_iff_eq]
    by_cases hxy : x.toNat = y.toNat
    · have hx : x = y := char_toNat_inj hxy
      subst hx
      have hxs : xs ≠ ys := fun e => h (e ▸ rfl)
      rcases strLtB_connex hxs with hl | hl
      · exact Or.inl (Or.inr ⟨rfl, hl⟩)
      · exact Or.inr (Or.inr ⟨rfl, hl⟩)
    · rcases Nat.lt_or_ge x.toNat y.toNat with hlt | hge
      · exact Or.inl (Or.inl hlt)
      · exact Or.inr (Or.inl (Nat.lt_of_le_of_ne hge (fun e => hxy e.symm)))

theorem strLt_trans {a b c : String} (h1 : strLt a b = true) (h2 : strLt b c = true) :
    strLt a c = true :=
  strLtB_trans h1 h2

theorem strLt_irrefl (a : String) : strLt a a = false :=
  strLtB_irrefl a.data

theorem strLt_connex {a b : String} (h : a ≠ b) :
    strLt a b = true ∨ strLt b a = true :=
  strLtB_connex (fun e => h (str_data_inj e))

theorem strLt_asymm {a b : String} (h : strLt a b = true) : strLt b a = false := by
  by_contra hc
  rw [Bool.not_eq_false] at hc
  have := strLt_trans h hc
  rw [strLt_irrefl] at this
  exact Bool.false_ne_true this

/-- Negative transitivity of the string order: if neither step goes down,
the composite does not go down. -/
theorem strLt_neg_trans {a b c : String} (h1 : strLt b a = false)
    (h2 : strLt c b = false) : strLt c a = false := by
  by_contra hc
  rw [Bool.not_eq_false] at hc
  by_cases hcb : c = b
  · subst hcb
    rw [hc] at h1
    exact Bool.true_eq_false ▸ (Bool.false_ne_true h1.symm)
  · rcases strLt_connex hcb with hl | hl
    · rw [hl] at h2
      exact Bool.false_ne_true h2.symm
    · have := strLt_trans hl hc
      rw [this] at h1
      exact Bool.false_ne_true h1.symm

theorem mem_insertStr {x a : String} : ∀ {l : List String},
    x ∈ insertStr a l ↔ x = a ∨ x ∈ l
  | [] => by simp [insertStr]
  | b :: bs => by
    by_cases h : strLt b a = true
    · simp only [insertStr]
      rw [if_pos h]
      simp only [List.mem_cons, mem_insertStr (l := bs)]
      tauto
    · simp only [insertStr]
      rw [if_neg h]
      simp only [List.mem_cons]

theorem mem_sortStr {x : String} : ∀ {l : List String}, x ∈ sortStr l ↔ x ∈ l
  | [] => Iff.rfl
  | a :: as => by
    simp only [sortStr, mem_insertStr, List.mem_cons, mem_sortStr (l := as)]

theorem pairwise_insertStr {a : String} : ∀ {l : List String},
    l.Pairwise (fun x y => strLt y x = false) →
    (insertStr a l).Pairwise (fun x y => strLt y x = false)
  | [], _ => by simp [insertStr]
  | b :: bs, h => by
    rw [List.pairwise_cons] at h
    by_cases hba : strLt b a = true
    · simp only [insertStr]
      rw [if_pos hba, List.pairwise_cons]
      refine ⟨fun x hx => ?_, pairwise_insertStr h.2⟩
      rcases mem_insertStr.mp hx with rfl | hx
      · exact strLt_asymm hba
      · exact h.1 x hx
    · have hba' : strLt b a = false := by rwa [Bool.not_eq_true] at hba
      simp only [insertStr]
      rw [if_neg hba, List.pairwise_cons]
      refine ⟨fun x hx => ?_, List.pairwise_cons.mpr h⟩
      rcases List.mem_cons.mp hx with rfl | hx
      · exact hba'
      · exact strLt_neg_trans hba' (h.1 x hx)

theorem pairwise_sortStr : ∀ (l : List String),
    (sortStr l).Pairwise (fun x y => strLt y x = false)
  | [] => List.Pairwise.nil
  | a :: as => pairwise_insertStr (pairwise_sortStr as)

theorem nodup_insertStr {a : String} : ∀ {l : List String},
    a ∉ l → l.Nodup → (insertStr a l).Nodup
  | [], _, _ => List.nodup_singleton a
  | b :: bs, ha, h => by
    rw [List.nodup_cons] at h
    by_cases hba : strLt b a = true
    · simp only [insertStr]
      rw [if_pos hba, List.nodup_cons]
      refine ⟨fun hx => ?_, nodup_insertStr (fun hm => ha (List.mem_cons_of_mem _ hm)) h.2⟩
      rcases mem_insertStr.mp hx with rfl | hx
      · exact ha (List.mem_cons_self _ _)
      · exact h.1 hx
    · simp only [insertStr]
      rw [if_neg hba, List.nodup_cons]
      refine ⟨fun hx => ?_, List.nodup_cons.mpr h⟩
      rcases List.mem_cons.mp hx with rfl | hx
      · exact ha (List.mem_cons_self _ _)
      · exact ha (List.mem_cons_of_mem _ hx)

theorem nodup_sortStr : ∀ {l : List String}, l.Nodup → (sortStr l).Nodup
  | [], _ => List.Pairwise.nil
  | a :: as, h => by
    rw [List.nodup_cons] at h
    exact nodup_insertStr (fun hm => h.1 (mem_sortStr.mp hm)) (nodup_sortStr h.2)

/-- An insertion sort of a duplicate-free string list is strictly
ascending. -/
theorem pairwise_lt_sortStr {l : List String} (h : l.Nodup) :
    (sortStr l).Pairwise (fun x y => strLt x y = true) := by
  have h1 := pairwise_sortStr l
  have h2 : (sortStr l).Pairwise (fun x y => x ≠ y) := nodup_sortStr h
  refine (h1.and h2).imp ?_
  rintro x y ⟨hle, hne⟩
  rcases strLt_connex hne with hl | hl
  · exact hl
  · rw [hl] at hle
    exact absurd hle (by simp)

theorem mem_insertCnt {q p : String × Nat} : ∀ {l : List (String × Nat)},
    q ∈ insertCnt p l ↔ q = p ∨ q ∈ l
  | [] => by simp [insertCnt]
  | r :: rs => by
    by_cases h : r.2 < p.2
    · simp only [insertCnt]
      rw [if_pos h]
      simp only [List.mem_cons]
    · simp only [insertCnt]
      rw [if_neg h]
      simp only [List.mem_cons, mem_insertCnt (l := rs)]
      tauto

theorem mem_sortCntDesc {q : String × Nat} : ∀ {l : List (String × Nat)},
    q ∈ sortCntDesc l ↔ q ∈ l
  | [] => Iff.rfl
  | p :: ps => by
    simp only [sortCntDesc, mem_insertCnt, List.mem_cons, mem_sortCntDesc (l := ps)]

theorem pairwise_insertCnt {p : String × Nat} : ∀ {l : List (String × Nat)},
    l.Pairwise (fun x y => y.2 ≤ x.2) →
    (insertCnt p l).Pairwise (fun x y => y.2 ≤ x.2)
  | [], _ => by simp [insertCnt]
  | q :: qs, h => by
    rw [List.pairwise_cons] at h
    by_cases hqp : q.2 < p.2
    · simp only [insertCnt]
      rw [if_pos hqp, List.pairwise_cons]
      refine ⟨fun x hx => ?_, List.pairwise_cons.mpr h⟩
      rcases List.mem_cons.mp hx with rfl | hx
      · exact Nat.le_of_lt hqp
      · exact Nat.le_trans (h.1 x hx) (Nat.le_of_lt hqp)
    · simp only [insertCnt]
      rw [if_neg hqp, List.pairwise_cons]
      refine ⟨fun x hx => ?_, pairwise_insertCnt h.2⟩
      rcases mem_insertCnt.mp hx with rfl | hx
      · exact Nat.le_of_not_lt hqp
      · exact h.1 x hx

theorem pairwise_sortCntDesc : ∀ (l : List (String × Nat)),
    (sortCntDesc l).Pairwise (fun x y => y.2 ≤ x.2)
  | [] => List.Pairwise.nil
  | p :: ps => pairwise_insertCnt (pairwise_sortCntDesc ps)

theorem sum_insertCnt (p : String × Nat) : ∀ (l : List (String × Nat)),
    ((insertCnt p l).map (fun q => q.2)).sum = p.2 + (l.map (fun q => q.2)).sum
  | [] => by simp [insertCnt]
  | q :: qs => by
    by_cases h : q.2 < p.2
    · simp only [insertCnt]
      rw [if_pos h]
      simp
    · simp only [insertCnt]
      rw [if_neg h]
      simp only [List.map_cons, List.sum_cons, sum_insertCnt p qs]
      omega

theorem sum_sortCntDesc : ∀ (l : List (String × Nat)),
    ((sortCntDesc l).map (fun q => q.2)).sum = (l.map (fun q => q.2)).sum
  | [] => rfl
  | p :: ps => by
    simp only [sortCntDesc, sum_insertCnt, sum_sortCntDesc ps, List.map_cons, List.sum_cons]

theorem mem_insertKey {j k : Int × String} : ∀ {l : List (Int × String)},
    j ∈ insertKey k l ↔ j = k ∨ j ∈ l
  | [] => by simp [insertKey]
  | i :: is => by
    by_cases h : keyLt k i = true
    · simp only [insertKey]
      rw [if_pos h]
      simp only [List.mem_cons]
    · simp only [insertKey]
      rw [if_neg h]
      simp only [List.mem_cons, mem_insertKey (l := is)]
      tauto

theorem mem_sortKeys {j : Int × String} : ∀ {l : List (Int × String)},
    j ∈ sortKeys l ↔ j ∈ l
  | [] => Iff.rfl
  | k :: ks => by
    simp only [sortKeys, mem_insertKey, List.mem_cons, mem_sortKeys (l := ks)]

theorem sum_map_add {α : Type} (f g : α → Nat) : ∀ (l : List α),
    (l.map (fun v => f v + g v)).sum = (l.map f).sum + (l.map g).sum
  | [] => rfl
  | a :: as => by
    simp only [List.map_cons, List.sum_cons, sum_map_add f g as]
    omega

theorem sum_map_indicator (a : String) : ∀ (l : List String),
    (l.map (fun v => if v = a then 1 else 0)).sum = l.count a
  | [] => rfl
  | b :: bs => by
    simp only [List.map_cons, List.sum_cons, sum_map_indicator a bs, List.count_cons]
    by_cases h : b = a
    · subst h
      simp [Nat.add_comm]
    · have h2 : ¬(a = b) := fun e => h e.symm
      simp [h, h2]

/-- Summing, over the distinct values of a list, the number of occurrences
of each value recovers the length of the list. -/
theorem sum_dedup_count : ∀ (l : List String),
    (l.dedup.map (fun v => l.count v)).sum = l.length
  | [] => rfl
  | a :: as => by
    by_cases h : a ∈ as
    · rw [List.dedup_cons_of_mem h]
      have hmap : as.dedup.map (fun v => (a :: as).count v) =
          as.dedup.map (fun v => as.count v + if v = a then 1 else 0) := by
        apply List.map_congr_left
        intro v _
        rw [List.count_cons]
        by_cases hva : v = a
        · simp [hva]
        · simp [hva, Ne.symm hva]
      rw [hmap, sum_map_add, sum_map_indicator, List.count_dedup, sum_dedup_count as]
      simp [h]
    · rw [List.dedup_cons_of_not_mem h]
      simp only [List.map_cons, List.sum_cons]
      have hmap : as.dedup.map (fun v => (a :: as).count v) =
          as.dedup.map (fun v => as.count v) := by
        apply List.map_congr_left
        intro v hv
        have hva : v ≠ a := fun e => h (e ▸ List.mem_dedup.mp hv)
        rw [List.count_cons]
        simp [hva, Ne.symm hva]
      rw [List.count_cons_self, hmap, sum_dedup_count as]
      have hz : as.count a = 0 := List.count_eq_zero.mpr h
      rw [hz]
      simp only [List.length_cons]
      omega

/-- Extracting the non-missing cells of a mapped column in one step. -/
theorem filterMap_id_map {α β : Type} (f : α → Option β) : ∀ (l : List α),
    (l.map f).filterMap id = l.filterMap f
  | [] => rfl
  | a :: as => by
    rw [List.map_cons]
    cases h : f a with
    | none =>
      simp [List.filterMap_cons, h, filterMap_id_map f as]
    | some b =>
      simp [List.filterMap_cons, h, filterMap_id_map f as]

/-- Occurrence counts in the non-missing cells of a column, phrased as a row
count over the underlying records. -/
theorem count_filterMap_field {α : Type} [DecidableEq α]
    (field : α → Option String) (v : String) : ∀ (view : List α),
    (view.filterMap field).count v =
      view.countP (fun r => decide (field r = some v))
  | [] => rfl
  | r :: rest => by
    cases h : field r with
    | none =>
      rw [List.filterMap_cons_none h, List.countP_cons]
      simp [h, count_filterMap_field field v rest]
    | some u =>
      rw [List.filterMap_cons_some h, List.count_cons, List.countP_cons]
      simp only [h, count_filterMap_field field v rest, Option.some.injEq]
      by_cases huv : u = v
      · subst huv
        simp
      · have huv2 : ¬(v = u) := fun e => huv e.symm
        simp [huv, huv2]

/-- The number of non-missing cells of a column, phrased as a row count over
the underlying records. -/
theorem length_filterMap_field {α : Type} (field : α → Option String) : ∀ (view : List α),
    (view.filterMap field).length = view.countP (fun r => (field r).isSome)
  | [] => rfl
  | r :: rest => by
    cases h : field r with
    | none =>
      rw [List.filterMap_cons_none h, List.countP_cons]
      simp [h, length_filterMap_field field rest]
    | some u =>
      rw [List.filterMap_cons_some h, List.countP_cons]
      simp [h, length_filterMap_field field rest]

theorem sum_take_le (l : List Nat) (n : Nat) : (l.take n).sum ≤ l.sum := by
  conv_rhs => rw [← List.take_append_drop n l]
  rw [List.sum_append]
  exact Nat.le_add_right _ _

/-- Every entry of `value_counts()` pairs a value occurring in the column
with its exact occurrence count. -/
theorem mem_valueCounts {cells : List (Option String)} {p : String × Nat}
    (hp : p ∈ valueCounts cells) :
    p.1 ∈ cells.filterMap id ∧ p.2 = (cells.filterMap id).count p.1 := by
  simp only [valueCounts] at hp
  rw [mem_sortCntDesc] at hp
  rcases List.mem_map.mp hp with ⟨v, hv, hvp⟩
  rw [← hvp]
  exact ⟨List.mem_dedup.mp hv, rfl⟩

/-- `value_counts()` lists its entries in count-descending order. -/
theorem pairwise_valueCounts (cells : List (Option String)) :
    (valueCounts cells).Pairwise (fun a b => b.2 ≤ a.2) := by
  simp only [valueCounts]
  exact pairwise_sortCntDesc _

/-- The counts returned by `value_counts()` sum to the number of
non-missing cells. -/
theorem sum_valueCounts (cells : List (Option String)) :
    ((valueCounts cells).map (fun p => p.2)).sum = (cells.filterMap id).length := by
  simp only [valueCounts]
  rw [sum_sortCntDesc, List.map_map]
  have hcomp : ((fun p : String × Nat => p.2) ∘ fun v => (v, (cells.filterMap id).count v)) =
      fun v => (cells.filterMap id).count v := rfl
  rw [hcomp, sum_dedup_count]

theorem pairKey_eq_some {r : Record} {k : Int × String} :
    pairKey r = some k ↔ r.modelYear = some k.1 ∧ r.city = some k.2 := by
  cases k with
  | mk y c =>
    cases hy : r.modelYear <;> cases hc : r.city <;> simp [pairKey, hy, hc]

theorem isin_some_iff {c : String} {l : List String} :
    isin (some c) l = true ↔ c ∈ l := by
  simp [isin, List.contains, List.elem_iff]

/-- The category column of the box-plot grouping is the sorted list of
distinct vehicle types among priced rows. -/
theorem numericGroups_categories (view : List Record) :
    (numericGroups view).map Prod.fst =
      sortStr ((df_type_price view).filterMap (fun r => r.vehicleType)).dedup := by
  simp only [numericGroups, List.map_map]
  exact List.map_id _

/-- The staged filter of the source is the single conjunctive filter of the
specification. -/
theorem df_filtered_eq_filter (df : List Record) (fs : FilterState) :
    df_filtered df fs = df.filter (filterPred fs) := by
  unfold df_filtered filterPred
  by_cases hC : fs.selectedCities.isEmpty <;> by_cases hM : fs.selectedMakes.isEmpty <;>
    simp [hC, hM, List.filter_filter, Bool.and_comm, Bool.and_assoc, Bool.and_left_comm]

/-- C1: the filter engine returns exactly the order-preserved subsequence of
the dataset satisfying the conjunction of the year-range, vehicle-type,
optional-city and optional-make predicates; no satisfying record is
excluded, and an empty vehicle-type selection yields an empty view. -/
theorem C1_filter_engine (df : List Record) (fs : FilterState) :
    df_filtered df fs = df.filter (filterPred fs) ∧
    (df_filtered df fs).Sublist df ∧
    (∀ r : Record, r ∈ df_filtered df fs ↔ r ∈ df ∧ filterPred fs r = true) ∧
    (fs.selectedTypes = [] → df_filtered df fs = []) := by
  have he := df_filtered_eq_filter df fs
  refine ⟨he, ?_, fun r => ?_, fun hT => ?_⟩
  · rw [he]
    exact df.filter_sublist
  · rw [he]
    exact List.mem_filter
  · rw [he, List.filter_eq_nil_iff]
    intro r _
    cases hv : r.vehicleType <;>
      simp [filterPred, isin, hT, hv, List.contains, List.elem]

/-- Witness for C1 at the spec section 8 scenario: a satisfying record is
kept, and the empty vehicle-type selection produces the empty view. -/
theorem C1_filter_engine_witness :
    exR1 ∈ df_filtered [exR1, exR2] exFS ∧ df_filtered [exR1, exR2] exFSnoTypes = [] :=
  ⟨((C1_filter_engine [exR1, exR2] exFS).2.2.1 exR1).mpr (by decide),
    (C1_filter_engine [exR1, exR2] exFSnoTypes).2.2.2 rfl⟩

/-- C2: the growth aggregation restricts the filtered view to rows whose
city is in `topCities`, then counts rows per distinct `(modelYear, city)`
pair: every emitted city is in `topCities`, every emitted pair counts at
least one underlying row (zero pairs are absent), the count is exactly the
number of matching rows, and the source invokes it with the top-10 ranking
computed from the same filtered view. -/
theorem C2_growth (view : List Record) (topCities : List String) :
    (∀ p ∈ growth view topCities, p.1.2 ∈ topCities ∧ 1 ≤ p.2 ∧
      p.2 = view.countP (fun r => decide (pairKey r = some p.1))) ∧
    (∀ k : Int × String, (∃ cnt, (k, cnt) ∈ growth view topCities) ↔
      ∃ r ∈ view, pairKey r = some k ∧ k.2 ∈ topCities) ∧
    growth_main view = growth view (top10_cities_main view) := by
  refine ⟨?_, ?_, rfl⟩
  · intro p hp
    simp only [growth] at hp
    rcases List.mem_map.mp hp with ⟨k, hk, hkp⟩
    subst hkp
    have hk1 := List.mem_dedup.mp (mem_sortKeys.mp hk)
    rcases List.mem_filterMap.mp hk1 with ⟨r, hrmem, hrk⟩
    have hrf := List.mem_filter.mp hrmem
    have hkey := pairKey_eq_some.mp hrk
    have hcity : k.2 ∈ topCities := by
      have h2 := hrf.2
      rw [hkey.2] at h2
      exact isin_some_iff.mp h2
    refine ⟨hcity, ?_, ?_⟩
    · exact List.countP_pos_iff.mpr ⟨r, hrmem, by simp [hrk]⟩
    · show (view.filter (fun r => isin r.city topCities)).countP
          (fun r => decide (pairKey r = some k)) =
        view.countP (fun r => decide (pairKey r = some k))
      rw [List.countP_filter]
      apply List.countP_congr
      intro x _
      simp only [Bool.and_eq_true, decide_eq_true_eq]
      constructor
      · exact fun h => h.1
      · intro h
        refine ⟨h, ?_⟩
        rw [(pairKey_eq_some.mp h).2]
        exact isin_some_iff.mpr hcity
  · intro k
    constructor
    · rintro ⟨cnt, hkn⟩
      simp only [growth] at hkn
      rcases List.mem_map.mp hkn with ⟨k', hk', hkeq⟩
      have hk'k : k' = k := congrArg Prod.fst hkeq
      subst hk'k
      have hk1 := List.mem_dedup.mp (mem_sortKeys.mp hk')
      rcases List.mem_filterMap.mp hk1 with ⟨r, hrmem, hrk⟩
      have hrf := List.mem_filter.mp hrmem
      have hkey := pairKey_eq_some.mp hrk
      refine ⟨r, hrf.1, hrk, ?_⟩
      have h2 := hrf.2
      rw [hkey.2] at h2
      exact isin_some_iff.mp h2
    · rintro ⟨r, hrv, hrk, hk2⟩
      refine ⟨(view.filter (fun r => isin r.city topCities)).countP
        (fun r => decide (pairKey r = some k)), ?_⟩
      simp only [growth]
      apply List.mem_map.mpr
      refine ⟨k, ?_, rfl⟩
      apply mem_sortKeys.mpr
      apply List.mem_dedup.mpr
      apply List.mem_filterMap.mpr
      refine ⟨r, ?_, hrk⟩
      apply List.mem_filter.mpr
      refine ⟨hrv, ?_⟩
      rw [(pairKey_eq_some.mp hrk).2]
      exact isin_some_iff.mpr hk2

/-- Witness for C2 on a one-row view: its `(2020, Seattle)` group lies in
the supplied top-cities list. -/
theorem C2_growth_witness : ("Seattle" : String) ∈ ["Seattle"] :=
  (((C2_growth [exR1] ["Seattle"]).1 ((2020, "Seattle"), 1) (by decide))).1

/-- C3: the top-N aggregation returns at most `n` entries, in
count-descending order, with counts summing to at most the view size, each
entry counting exactly the rows carrying its value; `city_counts` and
`makes_counts` are its two instantiations. -/
theorem C3_topN_props (view : List Record) (field : Record → Option String) (n : Nat) :
    (topN view field n).length ≤ n ∧
    (topN view field n).Pairwise (fun a b => b.2 ≤ a.2) ∧
    ((topN view field n).map (fun p => p.2)).sum ≤ view.length ∧
    (∀ p ∈ topN view field n, p.2 = view.countP (fun r => decide (field r = some p.1))) ∧
    city_counts view = topN view (fun r => r.city) 10 ∧
    makes_counts view = topN view (fun r => r.make) 10 := by
  refine ⟨?_, ?_, ?_, ?_, rfl, rfl⟩
  · exact List.length_take_le _ _
  · exact (pairwise_valueCounts _).sublist (List.take_sublist _ _)
  · have h1 : ((topN view field n).map (fun p => p.2)).sum ≤
        ((valueCounts (view.map field)).map (fun p => p.2)).sum := by
      unfold topN
      rw [List.map_take]
      exact sum_take_le _ _
    have h2 := sum_valueCounts (view.map field)
    rw [filterMap_id_map] at h2
    have h3 : (view.filterMap field).length ≤ view.length := List.length_filterMap_le _ _
    omega
  · intro p hp
    have hp' : p ∈ valueCounts (view.map field) := (List.take_sublist _ _).subset hp
    have hm := mem_valueCounts hp'
    rw [hm.2, filterMap_id_map, count_filterMap_field]

/-- Witness for C3 at the spec section 8 scenario: Seattle's entry counts
exactly its two records. -/
theorem C3_topN_props_witness :
    2 = [exR1, exR2, exR3].countP (fun r => decide (r.city = some "Seattle")) :=
  (C3_topN_props [exR1, exR2, exR3] (fun r => r.city) 10).2.2.2.1
    ("Seattle", 2) (by decide)

/-- C4: the loader keeps exactly the coerced rows with a parseable
`Model Year`; every record of the returned dataset has a non-missing
`modelYear`. -/
theorem C4_loader (rows : List RawRecord) :
    (∀ r ∈ load_data rows, (r.modelYear).isSome = true) ∧
    (∀ r : Record, r ∈ load_data rows ↔
      r ∈ rows.map coerceRow ∧ (r.modelYear).isSome = true) := by
  constructor
  · intro r hr
    exact (List.mem_filter.mp hr).2
  · intro r
    exact List.mem_filter

/-- Witness for C4: the cleanly parsing raw row is retained. -/
theorem C4_loader_witness : coerceRow exRaw1 ∈ load_data [exRaw1, exRaw2] :=
  ((C4_loader [exRaw1, exRaw2]).2 (coerceRow exRaw1)).mpr ⟨by decide, by decide⟩

/-- C5: startup fails exactly when the source is unreadable or yields zero
valid rows after dropping missing-year rows, and on success the dashboard
data is the non-empty loaded dataset. -/
theorem C5_startup (source : Option (List RawRecord)) :
    ((∃ e, startupData source = Except.error e) ↔
      source = none ∨ ∃ rows, source = some rows ∧ load_data rows = []) ∧
    (∀ ds, startupData source = Except.ok ds →
      ∃ rows, source = some rows ∧ ds = load_data rows ∧ ds ≠ []) := by
  cases source with
  | none =>
    refine ⟨⟨fun _ => Or.inl rfl, fun _ => ⟨LoadError.unreadable, rfl⟩⟩, ?_⟩
    intro ds h
    simp [startupData] at h
  | some rows =>
    by_cases h : (load_data rows).isEmpty = true
    · have h' : load_data rows = [] := List.isEmpty_iff.mp h
      refine ⟨⟨fun _ => Or.inr ⟨rows, rfl, h'⟩, fun _ => ⟨LoadError.emptyData, ?_⟩⟩, ?_⟩
      · simp [startupData, h]
      · intro ds hds
        simp [startupData, h] at hds
    · have h' : load_data rows ≠ [] := fun e => h (by rw [e]; rfl)
      refine ⟨⟨?_, ?_⟩, ?_⟩
      · rintro ⟨e, he⟩
        simp [startupData, h] at he
      · rintro (hn | ⟨rows', hr, hempty⟩)
        · exact absurd hn (by simp)
        · injection hr with hr'
          subst hr'
          exact absurd hempty h'
      · intro ds hds
        simp only [startupData] at hds
        rw [if_neg h] at hds
        injection hds with hds'
        exact ⟨rows, rfl, hds'.symm, hds' ▸ h'⟩

/-- Witness for C5: the unreadable source fails, and a readable source with
one valid row succeeds with that row. -/
theorem C5_startup_witness :
    (∃ e, startupData none = Except.error e) ∧
    (∃ rows, (some [exRaw1] : Option (List RawRecord)) = some rows ∧
      load_data [exRaw1] = load_data rows ∧ load_data [exRaw1] ≠ []) :=
  ⟨(C5_startup none).1.mpr (Or.inl rfl),
    (C5_startup (some [exRaw1])).2 (load_data [exRaw1]) rfl⟩

/-- C6: the distribution count of the vehicle-type column sums exactly to
the number of records of the filtered view with a non-missing vehicle
type. -/
theorem C6_distribution (view : List Record) :
    ((type_counts view).map (fun p => p.2)).sum =
      view.countP (fun r => (r.vehicleType).isSome) := by
  unfold type_counts
  rw [sum_valueCounts, filterMap_id_map, length_filterMap_field]

/-- C7: the box-plot grouping first restricts to rows with a non-missing
MSRP, partitions the remaining rows by vehicle type with the categories in
strictly ascending lexicographic order, and each partition is the ordered
sequence of MSRP values of its rows; rows with a missing MSRP contribute to
no partition. -/
theorem C7_numeric_groups (view : List Record) :
    ((numericGroups view).map Prod.fst).Pairwise (fun a b => strLt a b = true) ∧
    (∀ p ∈ numericGroups view,
      p.2 = (view.filter (fun r => r.vehicleType == some p.1 &&
        (r.baseMsrp).isSome)).filterMap (fun r => r.baseMsrp)) := by
  constructor
  · rw [numericGroups_categories]
    exact pairwise_lt_sortStr (List.nodup_dedup _)
  · intro p hp
    simp only [numericGroups] at hp
    rcases List.mem_map.mp hp with ⟨c, hc, hcp⟩
    subst hcp
    dsimp only
    unfold df_type_price
    rw [List.filter_filter]

/-- Witness for C7 at the spec section 8 scenario: the BEV partition holds
exactly the two priced Seattle records' MSRP values in row order. -/
theorem C7_numeric_groups_witness :
    (("BEV", [(40000 : Int), 42000]) : String × List Int).2 =
      ([exR1, exR2, exR3].filter (fun r =>
        r.vehicleType == some (("BEV", [(40000 : Int), 42000]) : String × List Int).1 &&
        (r.baseMsrp).isSome)).filterMap (fun r => r.baseMsrp) :=
  (C7_numeric_groups [exR1, exR2, exR3]).2 ("BEV", [(40000 : Int), 42000]) (by decide)

/-- C8: every aggregation is total on the empty filtered view and returns
the empty result of its shape. -/
theorem C8_empty_inputs (field : Record → Option String) (n : Nat) (topCities : List String) :
    topN [] field n = [] ∧ growth [] topCities = [] ∧ type_counts [] = [] ∧
    numericGroups [] = [] ∧ city_counts [] = [] ∧ makes_counts [] = [] ∧
    df_type_price [] = [] := by
  refine ⟨?_, rfl, rfl, rfl, ?_, ?_, rfl⟩ <;>
    simp [topN, city_counts, makes_counts, valueCounts, sortCntDesc]

/-- C9: the aggregations are pure: a second call on an equal view returns
an identical result, and the top-10 city list used by the growth chart is
the city ranking of the bar chart, cities in the same order even under
ties. -/
theorem C9_deterministic (view : List Record) :
    top10_cities_main view = (city_counts view).map Prod.fst ∧
    (∀ view2, view2 = view →
      city_counts view2 = city_counts view ∧
      top10_cities_main view2 = top10_cities_main view ∧
      growth view2 (top10_cities_main view2) = growth view (top10_cities_main view) ∧
      type_counts view2 = type_counts view ∧
      makes_counts view2 = makes_counts view ∧
      numericGroups view2 = numericGroups view) :=
  ⟨rfl, fun view2 h => by subst h; exact ⟨rfl, rfl, rfl, rfl, rfl, rfl⟩⟩

/-- Witness for C9 on a concrete view: the ranking identity, and a repeated
call on the same view returning the same counts. -/
theorem C9_deterministic_witness :
    top10_cities_main [exR1, exR2] = (city_counts [exR1, exR2]).map Prod.fst ∧
    city_counts [exR1, exR2] = city_counts [exR1, exR2] :=
  ⟨(C9_deterministic [exR1, exR2]).1,
    ((C9_deterministic [exR1, exR2]).2 [exR1, exR2] rfl).1⟩

/-- C10: the categories of the box-plot grouping are exactly the distinct
vehicle types occurring among rows with a non-missing MSRP, so no partition
of the result is empty. -/
theorem C10_groups_exact (view : List Record) :
    (∀ c : String, c ∈ (numericGroups view).map Prod.fst ↔
      ∃ r ∈ view, (r.baseMsrp).isSome = true ∧ r.vehicleType = some c) ∧
    (∀ p ∈ numericGroups view, p.2 ≠ []) := by
  constructor
  · intro c
    rw [numericGroups_categories, mem_sortStr, List.mem_dedup, List.mem_filterMap]
    unfold df_type_price
    constructor
    · rintro ⟨r, hr, hveh⟩
      have hm := List.mem_filter.mp hr
      exact ⟨r, hm.1, hm.2, hveh⟩
    · rintro ⟨r, hr, hmsrp, hveh⟩
      exact ⟨r, List.mem_filter.mpr ⟨hr, hmsrp⟩, hveh⟩
  · intro p hp
    simp only [numericGroups] at hp
    rcases List.mem_map.mp hp with ⟨c, hc, hcp⟩
    subst hcp
    dsimp only
    have hc1 := List.mem_dedup.mp (mem_sortStr.mp hc)
    rcases List.mem_filterMap.mp hc1 with ⟨r, hr, hveh⟩
    have hsome := (List.mem_filter.mp hr).2
    rcases Option.isSome_iff_exists.mp hsome with ⟨m, hm⟩
    apply List.ne_nil_of_mem (a := m)
    apply List.mem_filterMap.mpr
    refine ⟨r, ?_, hm⟩
    apply List.mem_filter.mpr
    exact ⟨hr, by simp [hveh]⟩

/-- Witness for C10 on a one-row view: BEV appears as a category and its
partition is non-empty. -/
theorem C10_groups_exact_witness :
    ("BEV" : String) ∈ (numericGroups [exR1]).map Prod.fst ∧
    (("BEV", [(40000 : Int)]) : String × List Int).2 ≠ [] :=
  ⟨((C10_groups_exact [exR1]).1 "BEV").mpr ⟨exR1, by decide, by decide, by decide⟩,
    (C10_groups_exact [exR1]).2 ("BEV", [(40000 : Int)]) (by decide)⟩

end EV
